import Mathlib

/-!
# Verification of the streaming WAV parser and TTS relay

Shallow embedding, in Lean 4, of the two source files of the
`supertone-api-test` repository:

* `tts_api_test.py` — the streaming WAV chunk scanner
  (`scan_chunks_streaming`), the format resolver (`dtype_for`) and the
  header-accumulation / playback loop of `play_stream`;
* `tts_proxy.py` — the relay generator of `tts_stream` (`gen`) and the
  request-payload builder `build_payload`.

Byte buffers are modelled as `List Nat` (a Python `bytearray` holds values
`< 256`; the decoders reduce every byte modulo 256 so out-of-range entries
cannot forge multi-byte values).  Fallible code returns `Except` values or
explicit result constructors.  The scanner loop, a `while` loop in the
source that advances by at least 8 bytes per iteration, is embedded with a
structural fuel argument so that every definition computes inside the
kernel; `scan_chunks_streaming` supplies `buf.length` fuel, which is shown
below to be canonical (any fuel at least `buf.length - i` gives the same
result).
-/

/-! ## Byte-level readers (struct.unpack on bytearray slices) -/

/-- The slice `buf[i : i+n]` of a byte buffer. -/
def bytesAt (buf : List Nat) (i n : Nat) : List Nat :=
  (buf.drop i).take n

/-- The slice `buf[i : i+4]`, used for 4-byte chunk tags. -/
def tagAt (buf : List Nat) (i : Nat) : List Nat :=
  bytesAt buf i 4

/-- `struct.unpack('<H', b)` on an exact 2-byte slice. -/
def decodeU16 : List Nat → Nat
  | [a, b] => a % 256 + 256 * (b % 256)
  | _ => 0

/-- `struct.unpack('<I', b)` on an exact 4-byte slice. -/
def decodeU32 : List Nat → Nat
  | [a, b, c, d] => a % 256 + 256 * (b % 256) + 65536 * (c % 256) + 16777216 * (d % 256)
  | _ => 0

/-- Little-endian 16-bit read at offset `i`. -/
def readU16LE (buf : List Nat) (i : Nat) : Nat :=
  decodeU16 (bytesAt buf i 2)

/-- Little-endian 32-bit read at offset `i`. -/
def readU32LE (buf : List Nat) (i : Nat) : Nat :=
  decodeU32 (bytesAt buf i 4)

/-- Little-endian 2-byte encoding of a value. -/
def u16le (v : Nat) : List Nat := [v % 256, v / 256 % 256]

/-- Little-endian 4-byte encoding of a value. -/
def u32le (v : Nat) : List Nat :=
  [v % 256, v / 256 % 256, v / 65536 % 256, v / 16777216 % 256]

/-- The ASCII tag `b'RIFF'`. -/
def riffTag : List Nat := [82, 73, 70, 70]

/-- The ASCII tag `b'WAVE'`. -/
def waveTag : List Nat := [87, 65, 86, 69]

/-- The ASCII tag `b'fmt '`. -/
def fmtTag : List Nat := [102, 109, 116, 32]

/-- The ASCII tag `b'data'`. -/
def dataTag : List Nat := [100, 97, 116, 97]

/-! ## The chunk scanner (`scan_chunks_streaming`) -/

/-- The dictionary built by the scanner from the 16-byte PCM format record,
in the source's insertion order.  The source never inserts a
`"resolved_format"` key, so `fmt.get("resolved_format")` in `play_stream`
is modelled by the `resolved_format` field, always `none` when the record
comes from the scanner. -/
structure FormatDict where
  audio_format : Nat
  channels : Nat
  rate : Nat
  bits : Nat
  block_align : Nat
  byte_rate : Nat
  resolved_format : Option Nat := none
deriving DecidableEq

/-- An entry of the scanner's `found` list: `(cid, start, size)`. -/
abbrev ChunkEntry := List Nat × Nat × Nat

/-- The scanner's return value `(found, fmt, data_off)`. -/
abbrev ScanResult := List ChunkEntry × Option FormatDict × Option Nat

/-- `struct.unpack('<HHIIHH', buf[i+8 : i+24])` plus dictionary
construction, for a `fmt ` chunk whose tag sits at offset `i`. -/
def parseFmt (buf : List Nat) (i : Nat) : FormatDict :=
  { audio_format := readU16LE buf (i + 8)
    channels := readU16LE buf (i + 10)
    rate := readU32LE buf (i + 12)
    byte_rate := readU32LE buf (i + 16)
    block_align := readU16LE buf (i + 20)
    bits := readU16LE buf (i + 22)
    resolved_format := none }

/-- The `while i + 8 <= len(buf)` loop of `scan_chunks_streaming`.  The
fuel argument only makes the recursion structural: one unit is spent per
iteration, and since each iteration advances `i` by at least 8 while the
guard keeps `i` below `buf.length`, any fuel with `buf.length ≤ i + fuel`
is enough (fuel exhaustion then coincides with the guard failing). -/
def scanLoopF : Nat → List Nat → List ChunkEntry → Option FormatDict → Nat → ScanResult
  | 0, _, found, fmt, _ => (found, fmt, none)
  | fuel + 1, buf, found, fmt, i =>
    if i + 8 ≤ buf.length then
      let cid := tagAt buf i
      let size := readU32LE buf (i + 4)
      let stop := i + 8 + size
      if cid = fmtTag then
        if buf.length < stop then (found, fmt, none)
        else
          scanLoopF fuel buf (found ++ [(cid, i, size)])
            (if 16 ≤ size then some (parseFmt buf i) else fmt) stop
      else if cid = dataTag then
        match fmt with
        | none => (found, fmt, none)
        | some f => (found ++ [(cid, i, size)], some f, some (i + 8))
      else if buf.length < stop then (found, fmt, none)
      else scanLoopF fuel buf (found ++ [(cid, i, size)]) fmt stop
    else (found, fmt, none)

/-- `scan_chunks_streaming(buf)`: validate the 12-byte RIFF/WAVE header,
then walk sub-chunks from offset 12. -/
def scan_chunks_streaming (buf : List Nat) : ScanResult :=
  if buf.length < 12 ∨ tagAt buf 0 ≠ riffTag ∨ bytesAt buf 8 4 ≠ waveTag then
    ([], none, none)
  else
    scanLoopF buf.length buf [] none 12

/-! ## The format resolver (`dtype_for`) -/

/-- `dtype_for(code, bits)`: the source's chain of early returns, flattened
into one conditional; the `ValueError` carries the offending
`(code, bits)` pair exactly as the source's message does. -/
def dtype_for (code bits : Nat) : Except (Nat × Nat) String :=
  if code = 1 ∧ bits = 8 then .ok "int8"
  else if code = 1 ∧ bits = 16 then .ok "int16"
  else if code = 1 ∧ bits = 24 then .ok "int24"
  else if code = 1 ∧ bits = 32 then .ok "int32"
  else if code = 3 ∧ bits = 32 then .ok "float32"
  else .error (code, bits)

/-! ## Concrete chunk builders -/

/-- Concrete RIFF header builder used in tests and witnesses. -/
def mkRiffHeader (rsize : Nat) : List Nat :=
  riffTag ++ u32le rsize ++ waveTag

/-- Concrete complete `fmt ` chunk builder (declared size 16). -/
def mkFmtChunk (af ch rate brate ba bits : Nat) : List Nat :=
  fmtTag ++ u32le 16 ++ u16le af ++ u16le ch ++ u32le rate ++ u32le brate ++
    u16le ba ++ u16le bits

/-- Concrete `data` chunk 8-byte header builder. -/
def mkDataHeader (sz : Nat) : List Nat :=
  dataTag ++ u32le sz

/-! ## The consumer pipeline (`play_stream`) -/

/-- The final format-code decision in `play_stream`:
`if code == 0xFFFE: code = fmt.get("resolved_format") or 1`.  The Python
`or` falls back to `1` when the looked-up value is `None` (always the case
for scanner-produced records) or `0` (falsy). -/
def resolveCode (f : FormatDict) : Nat :=
  if f.audio_format = 65534 then
    match f.resolved_format with
    | some n => if n = 0 then 1 else n
    | none => 1
  else f.audio_format

/-- Terminal outcome of the `play_stream` chunk loop.  `finished` carries
the byte blocks written to the audio sink, in order; `headerNotFound`
models the dump of the accumulated buffer to the diagnostic file followed
by the `RuntimeError` whose message names the bound; `unsupportedFormat`
models the `ValueError` escaping from `dtype_for`. -/
inductive PlayResult where
  | finished (writes : List (List Nat))
  | headerNotFound (dump : List Nat) (bound : Nat)
  | unsupportedFormat (code bits : Nat)
deriving DecidableEq

/-- Once `data_started` is set, every further non-empty chunk is written to
the sink unchanged (the `else: stream.write(chunk)` branch together with
the `if not chunk: continue` guard). -/
def playStarted (writes : List (List Nat)) (chunks : List (List Nat)) : PlayResult :=
  .finished (writes ++ chunks.filter (fun c => !c.isEmpty))

/-- The `for chunk in r.iter_content(...)` loop of `play_stream`, prior to
and after the `data_started` transition.  `bound` is `MAX_HEADER_BYTES`,
`buf` the accumulated header buffer, `writes` the sink writes so far. -/
def playLoop (bound : Nat) : List Nat → List (List Nat) → List (List Nat) → PlayResult
  | _, writes, [] => .finished writes
  | buf, writes, c :: rest =>
    if c.isEmpty then playLoop bound buf writes rest
    else
      let buf2 := buf ++ c
      match scan_chunks_streaming buf2 with
      | (_, some f, some off) =>
        match dtype_for (resolveCode f) f.bits with
        | .error ex => .unsupportedFormat ex.1 ex.2
        | .ok _ =>
          let initialPcm := buf2.drop off
          playStarted (writes ++ if initialPcm.isEmpty then [] else [initialPcm]) rest
      | _ =>
        if bound < buf2.length then .headerNotFound buf2 bound
        else playLoop bound buf2 writes rest

/-- `MAX_HEADER_BYTES = 1024 * 1024`. -/
def MAX_HEADER_BYTES : Nat := 1024 * 1024

/-- The whole accumulation-plus-playback loop of `play_stream`, starting
from an empty buffer. -/
def play_stream_loop (chunks : List (List Nat)) : PlayResult :=
  playLoop MAX_HEADER_BYTES [] [] chunks

/-- `if fmt and data_off is not None` as a Boolean on a scan result. -/
def scanComplete (buf : List Nat) : Bool :=
  match scan_chunks_streaming buf with
  | (_, some _, some _) => true
  | _ => false

/-- Concatenation of a list of byte chunks, as accumulated by
`buf.extend(chunk)`. -/
def catBytes : List (List Nat) → List Nat
  | [] => []
  | c :: rest => c ++ catBytes rest

/-! ## The relay pipeline (`tts_stream` / `gen` in `tts_proxy.py`) -/

/-- The transport-level exception classes caught by `gen`'s `except`
clause, with `e.__class__.__name__` as used in the 502 detail message. -/
inductive TransportError where
  | readError
  | streamClosed
  | endOfStream
  | closedResourceError
  | brokenResourceError
  | cancelledError
deriving DecidableEq

/-- `e.__class__.__name__` for each caught exception class. -/
def TransportError.className : TransportError → String
  | .readError => "ReadError"
  | .streamClosed => "StreamClosed"
  | .endOfStream => "EndOfStream"
  | .closedResourceError => "ClosedResourceError"
  | .brokenResourceError => "BrokenResourceError"
  | .cancelledError => "CancelledError"

/-- The `detail` of an `HTTPException` raised by `gen`: either the JSON
value parsed (by `httpx.Response(...).json()`) from exactly the given raw
body bytes, or a plain text message. -/
inductive ErrorDetail where
  | jsonBody (raw : List Nat)
  | textMessage (s : String)
deriving DecidableEq

/-- Observable outcome of one run of the `gen` generator: an
`HTTPException` raised before any byte was yielded, or a clean end of the
outbound stream after yielding the given chunks. -/
inductive GenResult where
  | earlyError (status : Nat) (detail : ErrorDetail)
  | clean (yielded : List (List Nat))
deriving DecidableEq

/-- The upstream response as `gen` observes it: status, content-type
header, the full body returned by `aread()` on the error path, the chunks
produced by `aiter_bytes()` on the success path, and, when present, the
transport failure raised after those chunks. -/
structure UpstreamResponse where
  status : Nat
  contentType : String
  errorBody : List Nat
  chunks : List (List Nat)
  failure : Option TransportError
deriving DecidableEq

/-- Python's `needle in hay` substring test. -/
def strContains (hay needle : String) : Bool :=
  hay.data.tails.any (fun t => needle.data.isPrefixOf t)

/-- Total bytes counted by `sent` over the chunks actually yielded
(`if chunk:` skips empty chunks). -/
def sentBytes (chunks : List (List Nat)) : Nat :=
  ((chunks.filter (fun c => !c.isEmpty)).map List.length).sum

/-- The `gen` async generator of `tts_stream`.  `decode` stands for the
external `bytes.decode("utf-8", "ignore")`; the JSON parse of the
structured error path is recorded as `ErrorDetail.jsonBody` holding the
exact bytes handed to it. -/
def tts_stream_gen (decode : List Nat → String) (up : UpstreamResponse) : GenResult :=
  if up.status ≠ 200 then
    if strContains up.contentType "application/json" then
      .earlyError up.status (.jsonBody up.errorBody)
    else
      let text := decode up.errorBody
      .earlyError up.status (.textMessage (if text = "" then "Upstream error" else text))
  else
    let yielded := up.chunks.filter (fun c => !c.isEmpty)
    match up.failure with
    | none => .clean yielded
    | some e =>
      if sentBytes up.chunks = 0 then
        .earlyError 502 (.textMessage ("Upstream stream error: " ++ e.className))
      else .clean yielded

/-- A concrete stand-in for `bytes.decode("utf-8", "ignore")` restricted
to ASCII, used only to instantiate witnesses and counterexamples. -/
def asciiDecode (bs : List Nat) : String :=
  String.mk (bs.filterMap (fun b => if b < 128 then some (Char.ofNat b) else none))

/-! ## The payload builder (`build_payload`) -/

/-- The keys of the module-level `DEFAULTS` dictionary, in insertion
order. -/
def defaultsKeys : List String :=
  ["language", "style", "model", "pitch_variance", "speed"]

/-- The `voice_settings.pitch_variance` expression of `build_payload`,
parsed with Python's right-associative conditional expressions:
`A if pv is None else (pv if "pitch_VARIANCE" in DEFAULTS else
(A if pv is None else pv))` where `A` is the configured default.  The
value type is abstract: the code only routes values. -/
def pitchVarianceValue {α : Type} (defPv : α) (pv : Option α) : α :=
  if pv.isNone then defPv
  else if defaultsKeys.contains "pitch_VARIANCE" then pv.getD defPv
  else if pv.isNone then defPv
  else pv.getD defPv

/-- The `voice_settings.speed` expression of `build_payload`:
`DEFAULTS["speed"] if body.speed is None else body.speed`. -/
def speedValue {α : Type} (defSpeed : α) (sp : Option α) : α :=
  if sp.isNone then defSpeed else sp.getD defSpeed

/-- The `voice_settings` object produced by `build_payload`. -/
structure VoiceSettings (α : Type) where
  pitch_variance : α
  speed : α
deriving DecidableEq

/-- The `voice_settings` part of `build_payload`'s result. -/
def build_payload_voice_settings {α : Type} (defPv defSpeed : α)
    (pv sp : Option α) : VoiceSettings α :=
  { pitch_variance := pitchVarianceValue defPv pv
    speed := speedValue defSpeed sp }

/-- A complete streaming WAV whose `fmt ` chunk declares the extensible
format code 0xFFFE = 65534 with 16-bit samples, used to exhibit the
consumer pipeline's silent fallback to PCM. -/
def extensibleWav : List Nat :=
  mkRiffHeader 36 ++ mkFmtChunk 65534 1 8000 16000 2 16 ++ mkDataHeader 4 ++
    [0, 0, 0, 0]

/-- An otherwise valid buffer whose `data` size field is the maximal
32-bit value, so that offset + 8 + size would overflow any 32-bit end
computation: the scanner accepts it as data-start anyway. -/
def oversizedDataWav : List Nat :=
  mkRiffHeader 36 ++ mkFmtChunk 1 1 8000 16000 2 16 ++ mkDataHeader 4294967295

/-! ## Byte-reading lemmas -/

theorem bytesAt_append (pre seg tail : List Nat) :
    bytesAt (pre ++ (seg ++ tail)) pre.length seg.length = seg := by
  unfold bytesAt
  rw [List.drop_left, List.take_left]

theorem bytesAt_of_append (pre seg tail : List Nat) (i n : Nat)
    (hi : pre.length = i) (hn : seg.length = n) :
    bytesAt (pre ++ (seg ++ tail)) i n = seg := by
  subst hi; subst hn; exact bytesAt_append pre seg tail

theorem tagAt_of_append (pre seg tail : List Nat) (i : Nat)
    (hi : pre.length = i) (hn : seg.length = 4) :
    tagAt (pre ++ (seg ++ tail)) i = seg :=
  bytesAt_of_append pre seg tail i 4 hi hn

theorem decodeU16_u16le (v : Nat) (hv : v < 65536) : decodeU16 (u16le v) = v := by
  simp only [decodeU16, u16le]
  omega

theorem decodeU32_u32le (v : Nat) (hv : v < 4294967296) : decodeU32 (u32le v) = v := by
  simp only [decodeU32, u32le]
  omega

theorem readU16LE_of_append (pre tail : List Nat) (v i : Nat)
    (hi : pre.length = i) (hv : v < 65536) :
    readU16LE (pre ++ (u16le v ++ tail)) i = v := by
  unfold readU16LE
  rw [bytesAt_of_append pre (u16le v) tail i 2 hi (by simp [u16le])]
  exact decodeU16_u16le v hv

theorem readU32LE_of_append (pre tail : List Nat) (v i : Nat)
    (hi : pre.length = i) (hv : v < 4294967296) :
    readU32LE (pre ++ (u32le v ++ tail)) i = v := by
  unfold readU32LE
  rw [bytesAt_of_append pre (u32le v) tail i 4 hi (by simp [u32le])]
  exact decodeU32_u32le v hv

theorem bytesAt_prefix_eq (p ext : List Nat) (i n : Nat) (h : i + n ≤ p.length) :
    bytesAt (p ++ ext) i n = bytesAt p i n := by
  unfold bytesAt
  rw [List.drop_append_of_le_length (by omega),
    List.take_append_of_le_length (by rw [List.length_drop]; omega)]

theorem tagAt_prefix_eq (p ext : List Nat) (i : Nat) (h : i + 4 ≤ p.length) :
    tagAt (p ++ ext) i = tagAt p i :=
  bytesAt_prefix_eq p ext i 4 h

theorem readU16LE_prefix_eq (p ext : List Nat) (i : Nat) (h : i + 2 ≤ p.length) :
    readU16LE (p ++ ext) i = readU16LE p i := by
  unfold readU16LE
  rw [bytesAt_prefix_eq p ext i 2 h]

theorem readU32LE_prefix_eq (p ext : List Nat) (i : Nat) (h : i + 4 ≤ p.length) :
    readU32LE (p ++ ext) i = readU32LE p i := by
  unfold readU32LE
  rw [bytesAt_prefix_eq p ext i 4 h]

theorem parseFmt_prefix_eq (p ext : List Nat) (i : Nat) (h : i + 24 ≤ p.length) :
    parseFmt (p ++ ext) i = parseFmt p i := by
  unfold parseFmt
  rw [readU16LE_prefix_eq p ext (i + 8) (by omega),
    readU16LE_prefix_eq p ext (i + 10) (by omega),
    readU32LE_prefix_eq p ext (i + 12) (by omega),
    readU32LE_prefix_eq p ext (i + 16) (by omega),
    readU16LE_prefix_eq p ext (i + 20) (by omega),
    readU16LE_prefix_eq p ext (i + 22) (by omega)]

/-! ## Scanner step lemmas -/

theorem scanLoopF_guard_fail (fuel : Nat) (buf : List Nat) (found : List ChunkEntry)
    (fmt : Option FormatDict) (i : Nat) (h : buf.length < i + 8) :
    scanLoopF fuel buf found fmt i = (found, fmt, none) := by
  cases fuel with
  | zero => rfl
  | succ n =>
    simp only [scanLoopF]
    rw [if_neg (by omega)]

theorem scanLoopF_fmt_step (fuel : Nat) (buf : List Nat) (found : List ChunkEntry)
    (fmt : Option FormatDict) (i : Nat)
    (htag : tagAt buf i = fmtTag) (hsize : readU32LE buf (i + 4) = 16)
    (hlen : i + 24 ≤ buf.length) :
    scanLoopF (fuel + 1) buf found fmt i =
      scanLoopF fuel buf (found ++ [(fmtTag, i, 16)]) (some (parseFmt buf i)) (i + 24) := by
  have h24 : i + 8 + 16 = i + 24 := by omega
  simp only [scanLoopF, htag, hsize, h24]
  rw [if_pos (by omega : i + 8 ≤ buf.length)]
  simp [show ¬ buf.length < i + 24 by omega]

theorem scanLoopF_data_step (fuel : Nat) (buf : List Nat) (found : List ChunkEntry)
    (f : FormatDict) (i : Nat)
    (htag : tagAt buf i = dataTag) (hlen : i + 8 ≤ buf.length) :
    scanLoopF (fuel + 1) buf found (some f) i =
      (found ++ [(dataTag, i, readU32LE buf (i + 4))], some f, some (i + 8)) := by
  simp only [scanLoopF, htag]
  rw [if_pos hlen]
  simp [show dataTag ≠ fmtTag from by decide]

theorem scanLoopF_data_before_fmt (fuel : Nat) (buf : List Nat)
    (found : List ChunkEntry) (i : Nat)
    (hlen : i + 8 ≤ buf.length) (htag : tagAt buf i = dataTag) :
    scanLoopF (fuel + 1) buf found none i = (found, none, none) := by
  simp only [scanLoopF, htag]
  rw [if_pos hlen]
  simp [show dataTag ≠ fmtTag from by decide]

theorem scanLoopF_oversize_waits (fuel : Nat) (buf : List Nat)
    (found : List ChunkEntry) (fmt : Option FormatDict) (i : Nat)
    (hlen : i + 8 ≤ buf.length) (htag : tagAt buf i ≠ dataTag)
    (hover : buf.length < i + 8 + readU32LE buf (i + 4)) :
    scanLoopF (fuel + 1) buf found fmt i = (found, fmt, none) := by
  simp only [scanLoopF]
  rw [if_pos hlen]
  by_cases hf : tagAt buf i = fmtTag
  · rw [if_pos hf, if_pos hover]
  · rw [if_neg hf, if_neg htag, if_pos hover]

/-! ## Scanner invariants -/

theorem scanLoopF_dataoff_some_fmt (fuel : Nat) :
    ∀ (buf : List Nat) (found : List ChunkEntry) (fmt : Option FormatDict) (i : Nat)
      (fnd : List ChunkEntry) (fmtO : Option FormatDict) (off : Nat),
      scanLoopF fuel buf found fmt i = (fnd, fmtO, some off) → fmtO.isSome := by
  induction fuel with
  | zero =>
    intro buf found fmt i fnd fmtO off h
    simp [scanLoopF] at h
  | succ n ih =>
    intro buf found fmt i fnd fmtO off h
    simp only [scanLoopF] at h
    split at h
    · split at h
      · split at h
        · simp at h
        · exact ih _ _ _ _ _ _ _ h
      · split at h
        · split at h
          · simp at h
          · rw [Prod.mk.injEq, Prod.mk.injEq] at h
            rw [← h.2.1]
            rfl
        · split at h
          · simp at h
          · exact ih _ _ _ _ _ _ _ h
    · simp at h

theorem scanLoopF_extend (p ext : List Nat) :
    ∀ (fu : Nat) (gu : Nat) (found : List ChunkEntry) (fmt : Option FormatDict) (i : Nat)
      (fnd : List ChunkEntry) (fx : FormatDict) (off : Nat),
      scanLoopF fu p found fmt i = (fnd, some fx, some off) →
      p.length + ext.length ≤ i + gu →
      scanLoopF gu (p ++ ext) found fmt i = (fnd, some fx, some off) := by
  intro fu
  induction fu with
  | zero =>
    intro gu found fmt i fnd fx off h hg
    simp [scanLoopF] at h
  | succ n ih =>
    intro gu found fmt i fnd fx off h hg
    by_cases hguard : i + 8 ≤ p.length
    case neg =>
      rw [scanLoopF_guard_fail (n + 1) p found fmt i (by omega)] at h
      simp at h
    case pos =>
      obtain ⟨g2, rfl⟩ : ∃ g2, gu = g2 + 1 := ⟨gu - 1, by omega⟩
      have hlenext : (p ++ ext).length = p.length + ext.length := by simp
      have htag : tagAt (p ++ ext) i = tagAt p i := tagAt_prefix_eq p ext i (by omega)
      have hsize : readU32LE (p ++ ext) (i + 4) = readU32LE p (i + 4) :=
        readU32LE_prefix_eq p ext (i + 4) (by omega)
      simp only [scanLoopF] at h
      rw [if_pos hguard] at h
      simp only [scanLoopF]
      rw [if_pos (show i + 8 ≤ (p ++ ext).length by omega), htag, hsize]
      by_cases hfmt : tagAt p i = fmtTag
      · rw [if_pos hfmt] at h ⊢
        by_cases hstop : p.length < i + 8 + readU32LE p (i + 4)
        · rw [if_pos hstop] at h
          simp at h
        · rw [if_neg hstop] at h
          rw [if_neg (show ¬ (p ++ ext).length < i + 8 + readU32LE p (i + 4) by omega)]
          by_cases h16 : 16 ≤ readU32LE p (i + 4)
          · rw [if_pos h16] at h ⊢
            rw [parseFmt_prefix_eq p ext i (by omega)]
            exact ih g2 _ _ _ _ _ _ h (by omega)
          · rw [if_neg h16] at h ⊢
            exact ih g2 _ _ _ _ _ _ h (by omega)
      · rw [if_neg hfmt] at h ⊢
        by_cases hdata : tagAt p i = dataTag
        · rw [if_pos hdata] at h ⊢
          cases fmt with
          | none => simp at h
          | some f0 => exact h
        · rw [if_neg hdata] at h ⊢
          by_cases hstop : p.length < i + 8 + readU32LE p (i + 4)
          · rw [if_pos hstop] at h
            simp at h
          · rw [if_neg hstop] at h
            rw [if_neg (show ¬ (p ++ ext).length < i + 8 + readU32LE p (i + 4) by omega)]
            exact ih g2 _ _ _ _ _ _ h (by omega)

theorem scan_extend (p ext : List Nat) (fnd : List ChunkEntry) (f : FormatDict)
    (off : Nat) (h : scan_chunks_streaming p = (fnd, some f, some off)) :
    scan_chunks_streaming (p ++ ext) = (fnd, some f, some off) := by
  unfold scan_chunks_streaming at h ⊢
  by_cases hhdr : p.length < 12 ∨ tagAt p 0 ≠ riffTag ∨ bytesAt p 8 4 ≠ waveTag
  · rw [if_pos hhdr] at h
    simp at h
  · rw [if_neg hhdr] at h
    push_neg at hhdr
    obtain ⟨hlen, hrf, hwv⟩ := hhdr
    rw [if_neg (show ¬ ((p ++ ext).length < 12 ∨ tagAt (p ++ ext) 0 ≠ riffTag ∨
        bytesAt (p ++ ext) 8 4 ≠ waveTag) by
      push_neg
      refine ⟨by simp only [List.length_append]; omega, ?_, ?_⟩
      · rw [tagAt_prefix_eq p ext 0 (by omega)]
        exact hrf
      · rw [bytesAt_prefix_eq p ext 8 4 (by omega)]
        exact hwv)]
    exact scanLoopF_extend p ext p.length (p ++ ext).length [] none 12 fnd f off h
      (by simp only [List.length_append]; omega)

/-! ## Scanning a standard streaming WAV prefix -/

/-- Scanning a buffer made of a RIFF/WAVE header, one complete `fmt `
sub-chunk, and a `data` tag with its 4-byte size field, followed by any
(possibly empty, possibly far shorter than the declared size) tail of
bytes: the scanner records both chunks, parses the format, and reports the
data start at byte 44 = position of the `data` tag (36) plus 8. -/
theorem scan_standard_wav (rsize af ch rate brate ba bits dsz : Nat) (extra : List Nat)
    (haf : af < 65536) (hch : ch < 65536) (hba : ba < 65536) (hbits : bits < 65536)
    (hrate : rate < 4294967296) (hbrate : brate < 4294967296) (hdsz : dsz < 4294967296) :
    scan_chunks_streaming
        (mkRiffHeader rsize ++ mkFmtChunk af ch rate brate ba bits ++
          mkDataHeader dsz ++ extra) =
      ([(fmtTag, 12, 16), (dataTag, 36, dsz)],
        some { audio_format := af, channels := ch, rate := rate, bits := bits,
               block_align := ba, byte_rate := brate, resolved_format := none },
        some 44) := by
  have hlen : (mkRiffHeader rsize ++ mkFmtChunk af ch rate brate ba bits ++ mkDataHeader dsz ++ extra).length = 44 + extra.length := by
    simp [mkRiffHeader, mkFmtChunk, mkDataHeader, u16le, u32le, riffTag, waveTag, fmtTag, dataTag]
    omega
  have h0 : tagAt (mkRiffHeader rsize ++ mkFmtChunk af ch rate brate ba bits ++ mkDataHeader dsz ++ extra) 0 = riffTag := by
    rw [show mkRiffHeader rsize ++ mkFmtChunk af ch rate brate ba bits ++ mkDataHeader dsz ++ extra = ([] : List Nat) ++ (riffTag ++ (u32le rsize ++ waveTag ++ fmtTag ++ u32le 16 ++ u16le af ++ u16le ch ++ u32le rate ++ u32le brate ++ u16le ba ++ u16le bits ++ dataTag ++ u32le dsz ++ extra)) from by
      simp [mkRiffHeader, mkFmtChunk, mkDataHeader, u16le, u32le, riffTag, waveTag, fmtTag, dataTag]]
    exact tagAt_of_append _ _ _ _ (by simp [mkRiffHeader, mkFmtChunk, mkDataHeader, u16le, u32le, riffTag, waveTag, fmtTag, dataTag]) rfl
  have h8 : bytesAt (mkRiffHeader rsize ++ mkFmtChunk af ch rate brate ba bits ++ mkDataHeader dsz ++ extra) 8 4 = waveTag := by
    rw [show mkRiffHeader rsize ++ mkFmtChunk af ch rate brate ba bits ++ mkDataHeader dsz ++ extra = riffTag ++ u32le rsize ++ (waveTag ++ (fmtTag ++ u32le 16 ++ u16le af ++ u16le ch ++ u32le rate ++ u32le brate ++ u16le ba ++ u16le bits ++ dataTag ++ u32le dsz ++ extra)) from by
      simp [mkRiffHeader, mkFmtChunk, mkDataHeader, u16le, u32le, riffTag, waveTag, fmtTag, dataTag]]
    exact bytesAt_of_append _ _ _ _ _ (by simp [mkRiffHeader, mkFmtChunk, mkDataHeader, u16le, u32le, riffTag, waveTag, fmtTag, dataTag]) rfl
  have h12 : tagAt (mkRiffHeader rsize ++ mkFmtChunk af ch rate brate ba bits ++ mkDataHeader dsz ++ extra) 12 = fmtTag := by
    rw [show mkRiffHeader rsize ++ mkFmtChunk af ch rate brate ba bits ++ mkDataHeader dsz ++ extra = mkRiffHeader rsize ++ (fmtTag ++ (u32le 16 ++ u16le af ++ u16le ch ++ u32le rate ++ u32le brate ++ u16le ba ++ u16le bits ++ dataTag ++ u32le dsz ++ extra)) from by
      simp [mkRiffHeader, mkFmtChunk, mkDataHeader, u16le, u32le, riffTag, waveTag, fmtTag, dataTag]]
    exact tagAt_of_append _ _ _ _ (by simp [mkRiffHeader, mkFmtChunk, mkDataHeader, u16le, u32le, riffTag, waveTag, fmtTag, dataTag]) rfl
  have h16 : readU32LE (mkRiffHeader rsize ++ mkFmtChunk af ch rate brate ba bits ++ mkDataHeader dsz ++ extra) (12 + 4) = 16 := by
    rw [show mkRiffHeader rsize ++ mkFmtChunk af ch rate brate ba bits ++ mkDataHeader dsz ++ extra = mkRiffHeader rsize ++ fmtTag ++ (u32le 16 ++ (u16le af ++ u16le ch ++ u32le rate ++ u32le brate ++ u16le ba ++ u16le bits ++ dataTag ++ u32le dsz ++ extra)) from by
      simp [mkRiffHeader, mkFmtChunk, mkDataHeader, u16le, u32le, riffTag, waveTag, fmtTag, dataTag]]
    exact readU32LE_of_append _ _ _ _ (by simp [mkRiffHeader, mkFmtChunk, mkDataHeader, u16le, u32le, riffTag, waveTag, fmtTag, dataTag]) (by norm_num)
  have h20 : readU16LE (mkRiffHeader rsize ++ mkFmtChunk af ch rate brate ba bits ++ mkDataHeader dsz ++ extra) (12 + 8) = af := by
    rw [show mkRiffHeader rsize ++ mkFmtChunk af ch rate brate ba bits ++ mkDataHeader dsz ++ extra = mkRiffHeader rsize ++ fmtTag ++ u32le 16 ++ (u16le af ++ (u16le ch ++ u32le rate ++ u32le brate ++ u16le ba ++ u16le bits ++ dataTag ++ u32le dsz ++ extra)) from by
      simp [mkRiffHeader, mkFmtChunk, mkDataHeader, u16le, u32le, riffTag, waveTag, fmtTag, dataTag]]
    exact readU16LE_of_append _ _ _ _ (by simp [mkRiffHeader, mkFmtChunk, mkDataHeader, u16le, u32le, riffTag, waveTag, fmtTag, dataTag]) haf
  have h22 : readU16LE (mkRiffHeader rsize ++ mkFmtChunk af ch rate brate ba bits ++ mkDataHeader dsz ++ extra) (12 + 10) = ch := by
    rw [show mkRiffHeader rsize ++ mkFmtChunk af ch rate brate ba bits ++ mkDataHeader dsz ++ extra = mkRiffHeader rsize ++ fmtTag ++ u32le 16 ++ u16le af ++ (u16le ch ++ (u32le rate ++ u32le brate ++ u16le ba ++ u16le bits ++ dataTag ++ u32le dsz ++ extra)) from by
      simp [mkRiffHeader, mkFmtChunk, mkDataHeader, u16le, u32le, riffTag, waveTag, fmtTag, dataTag]]
    exact readU16LE_of_append _ _ _ _ (by simp [mkRiffHeader, mkFmtChunk, mkDataHeader, u16le, u32le, riffTag, waveTag, fmtTag, dataTag]) hch
  have h24r : readU32LE (mkRiffHeader rsize ++ mkFmtChunk af ch rate brate ba bits ++ mkDataHeader dsz ++ extra) (12 + 12) = rate := by
    rw [show mkRiffHeader rsize ++ mkFmtChunk af ch rate brate ba bits ++ mkDataHeader dsz ++ extra = mkRiffHeader rsize ++ fmtTag ++ u32le 16 ++ u16le af ++ u16le ch ++ (u32le rate ++ (u32le brate ++ u16le ba ++ u16le bits ++ dataTag ++ u32le dsz ++ extra)) from by
      simp [mkRiffHeader, mkFmtChunk, mkDataHeader, u16le, u32le, riffTag, waveTag, fmtTag, dataTag]]
    exact readU32LE_of_append _ _ _ _ (by simp [mkRiffHeader, mkFmtChunk, mkDataHeader, u16le, u32le, riffTag, waveTag, fmtTag, dataTag]) hrate
  have h28 : readU32LE (mkRiffHeader rsize ++ mkFmtChunk af ch rate brate ba bits ++ mkDataHeader dsz ++ extra) (12 + 16) = brate := by
    rw [show mkRiffHeader rsize ++ mkFmtChunk af ch rate brate ba bits ++ mkDataHeader dsz ++ extra = mkRiffHeader rsize ++ fmtTag ++ u32le 16 ++ u16le af ++ u16le ch ++ u32le rate ++ (u32le brate ++ (u16le ba ++ u16le bits ++ dataTag ++ u32le dsz ++ extra)) from by
      simp [mkRiffHeader, mkFmtChunk, mkDataHeader, u16le, u32le, riffTag, waveTag, fmtTag, dataTag]]
    exact readU32LE_of_append _ _ _ _ (by simp [mkRiffHeader, mkFmtChunk, mkDataHeader, u16le, u32le, riffTag, waveTag, fmtTag, dataTag]) hbrate
  have h32 : readU16LE (mkRiffHeader rsize ++ mkFmtChunk af ch rate brate ba bits ++ mkDataHeader dsz ++ extra) (12 + 20) = ba := by
    rw [show mkRiffHeader rsize ++ mkFmtChunk af ch rate brate ba bits ++ mkDataHeader dsz ++ extra = mkRiffHeader rsize ++ fmtTag ++ u32le 16 ++ u16le af ++ u16le ch ++ u32le rate ++ u32le brate ++ (u16le ba ++ (u16le bits ++ dataTag ++ u32le dsz ++ extra)) from by
      simp [mkRiffHeader, mkFmtChunk, mkDataHeader, u16le, u32le, riffTag, waveTag, fmtTag, dataTag]]
    exact readU16LE_of_append _ _ _ _ (by simp [mkRiffHeader, mkFmtChunk, mkDataHeader, u16le, u32le, riffTag, waveTag, fmtTag, dataTag]) hba
  have h34 : readU16LE (mkRiffHeader rsize ++ mkFmtChunk af ch rate brate ba bits ++ mkDataHeader dsz ++ extra) (12 + 22) = bits := by
    rw [show mkRiffHeader rsize ++ mkFmtChunk af ch rate brate ba bits ++ mkDataHeader dsz ++ extra = mkRiffHeader rsize ++ fmtTag ++ u32le 16 ++ u16le af ++ u16le ch ++ u32le rate ++ u32le brate ++ u16le ba ++ (u16le bits ++ (dataTag ++ u32le dsz ++ extra)) from by
      simp [mkRiffHeader, mkFmtChunk, mkDataHeader, u16le, u32le, riffTag, waveTag, fmtTag, dataTag]]
    exact readU16LE_of_append _ _ _ _ (by simp [mkRiffHeader, mkFmtChunk, mkDataHeader, u16le, u32le, riffTag, waveTag, fmtTag, dataTag]) hbits
  have h36 : tagAt (mkRiffHeader rsize ++ mkFmtChunk af ch rate brate ba bits ++ mkDataHeader dsz ++ extra) 36 = dataTag := by
    rw [show mkRiffHeader rsize ++ mkFmtChunk af ch rate brate ba bits ++ mkDataHeader dsz ++ extra = mkRiffHeader rsize ++ mkFmtChunk af ch rate brate ba bits ++ (dataTag ++ (u32le dsz ++ extra)) from by
      simp [mkRiffHeader, mkFmtChunk, mkDataHeader, u16le, u32le, riffTag, waveTag, fmtTag, dataTag]]
    exact tagAt_of_append _ _ _ _ (by simp [mkRiffHeader, mkFmtChunk, mkDataHeader, u16le, u32le, riffTag, waveTag, fmtTag, dataTag]) rfl
  have h40 : readU32LE (mkRiffHeader rsize ++ mkFmtChunk af ch rate brate ba bits ++ mkDataHeader dsz ++ extra) (36 + 4) = dsz := by
    rw [show mkRiffHeader rsize ++ mkFmtChunk af ch rate brate ba bits ++ mkDataHeader dsz ++ extra = mkRiffHeader rsize ++ mkFmtChunk af ch rate brate ba bits ++ dataTag ++ (u32le dsz ++ (extra)) from by
      simp [mkRiffHeader, mkFmtChunk, mkDataHeader, u16le, u32le, riffTag, waveTag, fmtTag, dataTag]]
    exact readU32LE_of_append _ _ _ _ (by simp [mkRiffHeader, mkFmtChunk, mkDataHeader, u16le, u32le, riffTag, waveTag, fmtTag, dataTag]) hdsz
  have hparse : parseFmt (mkRiffHeader rsize ++ mkFmtChunk af ch rate brate ba bits ++ mkDataHeader dsz ++ extra) 12 =
      { audio_format := af, channels := ch, rate := rate, bits := bits,
         block_align := ba, byte_rate := brate, resolved_format := none } := by
    unfold parseFmt
    rw [h20, h22, h24r, h28, h32, h34]
  unfold scan_chunks_streaming
  rw [if_neg (show ¬ ((mkRiffHeader rsize ++ mkFmtChunk af ch rate brate ba bits ++ mkDataHeader dsz ++ extra).length < 12 ∨
      tagAt (mkRiffHeader rsize ++ mkFmtChunk af ch rate brate ba bits ++ mkDataHeader dsz ++ extra) 0 ≠ riffTag ∨ bytesAt (mkRiffHeader rsize ++ mkFmtChunk af ch rate brate ba bits ++ mkDataHeader dsz ++ extra) 8 4 ≠ waveTag) by
    push_neg
    exact ⟨by omega, h0, h8⟩)]
  rw [hlen, show 44 + extra.length = 43 + extra.length + 1 from by omega]
  rw [scanLoopF_fmt_step (43 + extra.length) _ _ _ 12 h12 h16 (by omega)]
  rw [hparse, show (12 : Nat) + 24 = 36 from by norm_num]
  rw [show 43 + extra.length = 42 + extra.length + 1 from by omega]
  rw [scanLoopF_data_step (42 + extra.length) _ _ _ 36 h36 (by omega)]
  rw [h40]
  simp

/-! ## Accumulation-loop lemmas -/

theorem playLoop_empty_step (bound : Nat) (buf : List Nat)
    (writes rest : List (List Nat)) :
    playLoop bound buf writes ([] :: rest) = playLoop bound buf writes rest := by
  simp [playLoop]

theorem playLoop_incomplete_step (bound : Nat) (buf c : List Nat)
    (writes rest : List (List Nat))
    (hc : c.isEmpty = false) (hs : scanComplete (buf ++ c) = false) :
    playLoop bound buf writes (c :: rest) =
      (if bound < (buf ++ c).length then PlayResult.headerNotFound (buf ++ c) bound
       else playLoop bound (buf ++ c) writes rest) := by
  unfold scanComplete at hs
  simp only [playLoop, hc, Bool.false_eq_true, if_false]
  rcases h : scan_chunks_streaming (buf ++ c) with ⟨fnd, fmtO, offO⟩
  rw [h] at hs
  cases fmtO with
  | some f =>
    cases offO with
    | some off => simp at hs
    | none => rfl
  | none =>
    cases offO with
    | some off => rfl
    | none => rfl

theorem playLoop_header_not_found (bound : Nat) :
    ∀ (chunks : List (List Nat)) (buf : List Nat) (writes : List (List Nat)) (m : Nat),
      m < chunks.length →
      (buf ++ catBytes (chunks.take m)).length ≤ bound →
      bound < (buf ++ catBytes (chunks.take (m + 1))).length →
      (∀ k, k ≤ m + 1 → ¬ scanComplete (buf ++ catBytes (chunks.take k)) = true) →
      playLoop bound buf writes chunks =
        .headerNotFound (buf ++ catBytes (chunks.take (m + 1))) bound := by
  intro chunks
  induction chunks with
  | nil =>
    intro buf writes m hm
    simp at hm
  | cons c rest ih =>
    intro buf writes m hm hprev hcross hscan
    by_cases hc : c.isEmpty
    · have hcnil : c = [] := by
        cases c with
        | nil => rfl
        | cons a l => simp at hc
      subst hcnil
      cases m with
      | zero =>
        simp [catBytes] at hprev hcross
        omega
      | succ m2 =>
        rw [playLoop_empty_step]
        have hgoal := ih buf writes m2 (by simpa using hm)
          (by simpa [catBytes] using hprev)
          (by simpa [catBytes] using hcross)
          (by
            intro k hk
            have := hscan (k + 1) (by omega)
            simpa [catBytes] using this)
        simpa [catBytes] using hgoal
    · have hc2 : c.isEmpty = false := by
        cases h : c.isEmpty with
        | true => exact absurd h hc
        | false => rfl
      have hs1 : scanComplete (buf ++ c) = false := by
        have := hscan 1 (by omega)
        simpa [catBytes] using this
      rw [playLoop_incomplete_step bound buf c writes rest hc2 hs1]
      cases m with
      | zero =>
        rw [if_pos (by simpa [catBytes] using hcross)]
        simp [catBytes]
      | succ m2 =>
        have hbc : (buf ++ c).length ≤ bound := by
          have := hprev
          simp only [List.take_succ_cons, catBytes, List.append_assoc,
            List.length_append] at this ⊢
          omega
        rw [if_neg (by omega)]
        have hgoal := ih (buf ++ c) writes m2 (by simpa using hm)
          (by
            have := hprev
            simp only [List.take_succ_cons, catBytes] at this
            simpa [List.append_assoc] using this)
          (by
            have := hcross
            simp only [List.take_succ_cons, catBytes] at this
            simpa [List.append_assoc] using this)
          (by
            intro k hk
            have := hscan (k + 1) (by omega)
            simp only [List.take_succ_cons, catBytes] at this
            simpa [List.append_assoc] using this)
        rw [hgoal]
        simp [catBytes, List.append_assoc]

/-! ## Claim theorems -/

/-- C1: for every buffer starting with a valid RIFF/WAVE header and
containing a complete `fmt ` sub-chunk followed by a `data` tag whose
8-byte header is fully present, the scanner returns the data-start offset
44 = position of the `data` tag (36) plus 8 and stops scanning there, even
when the declared data size `dsz` exceeds the bytes buffered (the tail
`extra` is arbitrary, in particular arbitrarily shorter than `dsz`). -/
theorem claim_c1_data_start (rsize af ch rate brate ba bits dsz : Nat) (extra : List Nat)
    (haf : af < 65536) (hch : ch < 65536) (hba : ba < 65536) (hbits : bits < 65536)
    (hrate : rate < 4294967296) (hbrate : brate < 4294967296) (hdsz : dsz < 4294967296) :
    scan_chunks_streaming
        (mkRiffHeader rsize ++ mkFmtChunk af ch rate brate ba bits ++
          mkDataHeader dsz ++ extra) =
      ([(fmtTag, 12, 16), (dataTag, 36, dsz)],
        some { audio_format := af, channels := ch, rate := rate, bits := bits,
               block_align := ba, byte_rate := brate, resolved_format := none },
        some 44) :=
  scan_standard_wav rsize af ch rate brate ba bits dsz extra haf hch hba hbits
    hrate hbrate hdsz

theorem claim_c1_witness :
    scan_chunks_streaming
        (mkRiffHeader 36 ++ mkFmtChunk 1 1 8000 16000 2 16 ++
          mkDataHeader 4000000 ++ [0, 0]) =
      ([(fmtTag, 12, 16), (dataTag, 36, 4000000)],
        some { audio_format := 1, channels := 1, rate := 8000, bits := 16,
               block_align := 2, byte_rate := 16000, resolved_format := none },
        some 44) :=
  claim_c1_data_start 36 1 1 8000 16000 2 16 4000000 [0, 0] (by norm_num)
    (by norm_num) (by norm_num) (by norm_num) (by norm_num) (by norm_num)
    (by norm_num)

/-- C2: a `data` tag reached while no complete `fmt ` sub-chunk has been
parsed makes the scan halt with no data-start marker and no format; more
generally the scanner never returns a data-start offset without also
returning a format. -/
theorem claim_c2_data_needs_fmt :
    (∀ (fuel : Nat) (buf : List Nat) (found : List ChunkEntry) (i : Nat),
        i + 8 ≤ buf.length → tagAt buf i = dataTag →
        scanLoopF (fuel + 1) buf found none i = (found, none, none)) ∧
    (∀ (buf : List Nat) (fnd : List ChunkEntry) (fmtO : Option FormatDict) (off : Nat),
        scan_chunks_streaming buf = (fnd, fmtO, some off) → fmtO.isSome) := by
  constructor
  · intro fuel buf found i hlen htag
    exact scanLoopF_data_before_fmt fuel buf found i hlen htag
  · intro buf fnd fmtO off h
    unfold scan_chunks_streaming at h
    split at h
    · simp at h
    · exact scanLoopF_dataoff_some_fmt _ _ _ _ _ _ _ _ h

theorem claim_c2_witness :
    scanLoopF 6 (mkRiffHeader 36 ++ mkDataHeader 10 ++ [0, 0, 0, 0]) [] none 12 =
      ([], none, none) :=
  claim_c2_data_needs_fmt.1 5 (mkRiffHeader 36 ++ mkDataHeader 10 ++ [0, 0, 0, 0])
    [] 12 (by decide) (by decide)

/-- C3: a scan that already produced a format and a data-start offset on a
buffered prefix is stable under appending more bytes, so incremental
scanning (first non-null result while chunks accumulate) agrees with one
single scan over the complete buffer. -/
theorem claim_c3_incremental_scan_agrees (p ext : List Nat) (fnd : List ChunkEntry)
    (f : FormatDict) (off : Nat)
    (h : scan_chunks_streaming p = (fnd, some f, some off)) :
    scan_chunks_streaming (p ++ ext) = (fnd, some f, some off) :=
  scan_extend p ext fnd f off h

theorem claim_c3_witness :
    scan_chunks_streaming
        ((mkRiffHeader 36 ++ mkFmtChunk 1 1 8000 16000 2 16 ++ mkDataHeader 1000) ++
          [9, 9, 9]) =
      ([(fmtTag, 12, 16), (dataTag, 36, 1000)],
        some { audio_format := 1, channels := 1, rate := 8000, bits := 16,
               block_align := 2, byte_rate := 16000, resolved_format := none },
        some 44) :=
  claim_c3_incremental_scan_agrees
    (mkRiffHeader 36 ++ mkFmtChunk 1 1 8000 16000 2 16 ++ mkDataHeader 1000)
    [9, 9, 9] _ _ _ (by decide)

/-- C4: when the accumulated buffer first exceeds the bound (at chunk index
`m`: at most `bound` bytes before it, more than `bound` after it) while the
scan has stayed incomplete up to that point, the loop fails exactly there,
exactly once, dumping the full accumulated buffer and reporting the
header-not-found error that names the bound. -/
theorem claim_c4_header_bound_failure (bound : Nat) (chunks : List (List Nat)) (m : Nat)
    (hm : m < chunks.length)
    (hprev : (catBytes (chunks.take m)).length ≤ bound)
    (hcross : bound < (catBytes (chunks.take (m + 1))).length)
    (hscan : ∀ k, k ≤ m + 1 → ¬ scanComplete (catBytes (chunks.take k)) = true) :
    playLoop bound [] [] chunks =
      .headerNotFound (catBytes (chunks.take (m + 1))) bound := by
  have h := playLoop_header_not_found bound chunks [] [] m hm
    (by simpa using hprev) (by simpa using hcross)
    (by intro k hk; simpa using hscan k hk)
  simpa using h

theorem claim_c4_witness :
    playLoop 3 [] [] [[1, 2], [3, 4]] = .headerNotFound [1, 2, 3, 4] 3 :=
  claim_c4_header_bound_failure 3 [[1, 2], [3, 4]] 1 (by decide) (by decide)
    (by decide) (by decide)

/-- C5: an upstream transport failure during a successful (status-200)
streaming relay surfaces a 502 error naming the failure class when no
bytes had been yielded yet, and ends the outbound stream cleanly, with no
error frame, when at least one byte had been yielded. -/
theorem claim_c5_midstream_bifurcation (decode : List Nat → String)
    (up : UpstreamResponse) (e : TransportError)
    (hstatus : up.status = 200) (hfail : up.failure = some e) :
    (sentBytes up.chunks = 0 →
      tts_stream_gen decode up =
        .earlyError 502 (.textMessage ("Upstream stream error: " ++ e.className))) ∧
    (sentBytes up.chunks ≠ 0 →
      tts_stream_gen decode up = .clean (up.chunks.filter (fun c => !c.isEmpty))) := by
  constructor
  · intro h0
    simp [tts_stream_gen, hstatus, hfail, h0]
  · intro h0
    simp [tts_stream_gen, hstatus, hfail, h0]

theorem claim_c5_witness :
    tts_stream_gen asciiDecode
        { status := 200, contentType := "audio/wav", errorBody := [],
          chunks := [[]], failure := some .readError } =
      .earlyError 502 (.textMessage "Upstream stream error: ReadError") :=
  (claim_c5_midstream_bifurcation asciiDecode
    { status := 200, contentType := "audio/wav", errorBody := [],
      chunks := [[]], failure := some .readError } .readError rfl rfl).1 (by decide)

/-- C6: the format resolver maps exactly the five supported
(code, bit-depth) pairs to their encodings and rejects every other pair
with an unsupported-format error carrying the offending code and bits. -/
theorem claim_c6_dtype_table :
    dtype_for 1 8 = .ok "int8" ∧ dtype_for 1 16 = .ok "int16" ∧
    dtype_for 1 24 = .ok "int24" ∧ dtype_for 1 32 = .ok "int32" ∧
    dtype_for 3 32 = .ok "float32" ∧
    ∀ code bits : Nat,
      ¬ (code = 1 ∧ (bits = 8 ∨ bits = 16 ∨ bits = 24 ∨ bits = 32)) →
      ¬ (code = 3 ∧ bits = 32) →
      dtype_for code bits = .error (code, bits) := by
  refine ⟨rfl, rfl, rfl, rfl, rfl, ?_⟩
  intro code bits h1 h2
  unfold dtype_for
  rw [if_neg (by tauto), if_neg (by tauto), if_neg (by tauto), if_neg (by tauto),
    if_neg (by tauto)]

theorem claim_c6_witness :
    dtype_for 1 64 = .error (1, 64) ∧ dtype_for 7 16 = .error (7, 16) :=
  ⟨claim_c6_dtype_table.2.2.2.2.2 1 64 (by decide) (by decide),
   claim_c6_dtype_table.2.2.2.2.2 7 16 (by decide) (by decide)⟩

/-- C7 counterexample: on a stream whose format code is 0xFFFE (and no
resolved sub-format exists, as the scanner never produces one), the
consumer pipeline does not fail with an unsupported-format error: it
substitutes PCM code 1, resolves int16, and plays the payload. -/
theorem claim_c7_counterexample :
    playLoop MAX_HEADER_BYTES [] [] [extensibleWav] = .finished [[0, 0, 0, 0]] ∧
    resolveCode { audio_format := 65534, channels := 1, rate := 8000, bits := 16,
                  block_align := 2, byte_rate := 16000, resolved_format := none } = 1 :=
  ⟨by decide, rfl⟩

/-- C7 (amended): when the parsed format code is 0xFFFE and no resolved
sub-format is available, the consumer pipeline silently substitutes the
PCM code 1 before resolving the sample encoding (so with 16-bit samples it
resolves int16 instead of failing). -/
theorem claim_c7_amended (f : FormatDict) (hext : f.audio_format = 65534)
    (hres : f.resolved_format = none) :
    resolveCode f = 1 ∧
    (f.bits = 16 → dtype_for (resolveCode f) f.bits = .ok "int16") := by
  have h1 : resolveCode f = 1 := by
    unfold resolveCode
    rw [hext, hres]
    simp
  exact ⟨h1, fun hb => by rw [h1, hb]; rfl⟩

theorem claim_c7_witness :
    resolveCode { audio_format := 65534, channels := 2, rate := 44100, bits := 16,
                  block_align := 4, byte_rate := 176400, resolved_format := none } = 1 ∧
    ((16 : Nat) = 16 →
      dtype_for
        (resolveCode { audio_format := 65534, channels := 2, rate := 44100,
                       bits := 16, block_align := 4, byte_rate := 176400,
                       resolved_format := none }) 16 = .ok "int16") :=
  claim_c7_amended
    { audio_format := 65534, channels := 2, rate := 44100, bits := 16,
      block_align := 4, byte_rate := 176400, resolved_format := none } rfl rfl

/-- C8 (amended): a non-success upstream status makes the relay raise
before yielding any byte, forwarding the upstream status with the parsed
JSON payload of the full error body when the content type indicates JSON,
and otherwise with the decoded text — substituting the fixed message
"Upstream error" when that text is empty. -/
theorem claim_c8_amended (decode : List Nat → String) (up : UpstreamResponse)
    (h : up.status ≠ 200) :
    tts_stream_gen decode up =
      .earlyError up.status
        (if strContains up.contentType "application/json" then .jsonBody up.errorBody
         else .textMessage
           (if decode up.errorBody = "" then "Upstream error" else decode up.errorBody)) := by
  unfold tts_stream_gen
  rw [if_pos h]
  by_cases hj : strContains up.contentType "application/json" = true
  · rw [if_pos hj, if_pos hj]
  · rw [if_neg hj, if_neg hj]

theorem claim_c8_witness :
    tts_stream_gen asciiDecode
        { status := 500, contentType := "application/json", errorBody := [123, 125],
          chunks := [], failure := none } =
      .earlyError 500 (.jsonBody [123, 125]) :=
  claim_c8_amended asciiDecode
    { status := 500, contentType := "application/json", errorBody := [123, 125],
      chunks := [], failure := none } (by decide)

/-- C8 counterexample: a non-JSON error response whose body decodes to the
empty string is answered with the fixed message "Upstream error", not with
the raw decoded text (which is empty), refuting the unqualified claim. -/
theorem claim_c8_counterexample :
    tts_stream_gen asciiDecode
        { status := 500, contentType := "text/plain", errorBody := [],
          chunks := [], failure := none } =
      .earlyError 500 (.textMessage "Upstream error") ∧
    asciiDecode [] = "" ∧ ("Upstream error" : String) ≠ "" :=
  ⟨by decide, rfl, by decide⟩

/-- C9 counterexample: a sub-chunk size field whose chunk end would
overflow a 32-bit computation (36 + 8 + 4294967295 exceeds 2^32) does not
make the scanner report any malformed-container error: the scan succeeds,
accepting the chunk as the data start. -/
theorem claim_c9_counterexample :
    scan_chunks_streaming oversizedDataWav =
      ([(fmtTag, 12, 16), (dataTag, 36, 4294967295)],
        some { audio_format := 1, channels := 1, rate := 8000, bits := 16,
               block_align := 2, byte_rate := 16000, resolved_format := none },
        some 44) ∧
    4294967296 < 36 + 8 + 4294967295 :=
  ⟨by decide, by norm_num⟩

/-- C9 (amended): the scanner has no malformed-container error for size
fields at all; exact arithmetic makes the chunk end at least the current
offset, and a non-`data` chunk whose declared end lies beyond the buffer
simply stops the scan, returning the current findings with no data-start,
to wait for more bytes. -/
theorem claim_c9_amended (fuel : Nat) (buf : List Nat) (found : List ChunkEntry)
    (fmt : Option FormatDict) (i : Nat)
    (hlen : i + 8 ≤ buf.length) (htag : tagAt buf i ≠ dataTag)
    (hover : buf.length < i + 8 + readU32LE buf (i + 4)) :
    scanLoopF (fuel + 1) buf found fmt i = (found, fmt, none) :=
  scanLoopF_oversize_waits fuel buf found fmt i hlen htag hover

theorem claim_c9_witness :
    scanLoopF 2 (mkRiffHeader 100 ++ ([74, 85, 78, 75] ++ u32le 4294967295))
      [] none 12 = ([], none, none) :=
  claim_c9_amended 1 (mkRiffHeader 100 ++ ([74, 85, 78, 75] ++ u32le 4294967295))
    [] none 12 (by decide) (by decide) (by decide)

/-- C10: the nested conditional expressions of `build_payload` are
extensionally the simple per-field fallback: the request value when
present, the configured default otherwise, for both `pitch_variance` and
`speed`. -/
theorem claim_c10_voice_settings_fallback :
    ∀ (α : Type) (dp ds : α) (pv sp : Option α),
      build_payload_voice_settings dp ds pv sp =
        { pitch_variance := pv.getD dp, speed := sp.getD ds } := by
  intro α dp ds pv sp
  have hk : defaultsKeys.contains "pitch_VARIANCE" = false := by decide
  cases pv <;> cases sp <;>
    simp [build_payload_voice_settings, pitchVarianceValue, speedValue, hk]
